import Mathlib

/-!
Shallow embedding of the challenge-response authentication subsystem of the
Base-Batches-002 repository (the SplitPayment demo under
`src/day3-base-accounts/SplitPayment`): nonce issuance and consumption
(`lib/auth.ts`, `app/api/auth/nonce/route.ts`) and the verify/check/revoke
session endpoints (`app/api/auth/verify/route.ts`).

Modelling conventions:
- The JavaScript `Set<string>` of nonces is a `List String` quotiented by the
  operations used (`add` appends when absent, `delete` removes every copy).
- Each `setTimeout` scheduled by `addNonce` is recorded as a pending timer
  `(nonce, fireTime)`; `fireTimer` models the callback actually running.
- The `Map<string, Session>` of sessions is an association list.
- `Date.now()` is an explicit `now : Nat` argument (milliseconds).
- `crypto.randomBytes(16)` is an explicit `List (Fin 256)` argument.
- `publicClient.verifyMessage` is an explicit `VerifierResult` argument:
  it resolved to a boolean, or it threw.
- A missing JSON field and an empty-string field are both falsy in
  JavaScript (`if (!address)`), so both are modelled as `""`.
-/

namespace SplitPaymentAuth

/-- Nonce TTL from `lib/auth.ts`: `setTimeout(..., 10 * 60 * 1000)`. -/
def nonceTTL : Nat := 10 * 60 * 1000

/-- Session TTL from `verify/route.ts`: `const sevenDays = 7 * 24 * 60 * 60 * 1000`. -/
def sevenDays : Nat := 7 * 24 * 60 * 60 * 1000

/-- State of `lib/auth.ts`: the `nonces : Set<string>` plus the pending
`setTimeout` deletions scheduled by `addNonce`. -/
structure NonceStore where
  nonces : List String
  timers : List (String × Nat)
deriving DecidableEq

/-- Embedding of `addNonce` (`lib/auth.ts` lines 24-33): `nonces.add(nonce)`
and `setTimeout(() => nonces.delete(nonce), 10 * 60 * 1000)`. -/
def addNonce (s : NonceStore) (n : String) (now : Nat) : NonceStore :=
  ⟨if n ∈ s.nonces then s.nonces else s.nonces ++ [n],
   s.timers ++ [(n, now + nonceTTL)]⟩

/-- Embedding of one scheduled expiry callback firing:
`nonces.delete(nonce)`, and the timer is spent. -/
def fireTimer (s : NonceStore) (n : String) : NonceStore :=
  ⟨s.nonces.filter (fun m => decide (m ≠ n)),
   s.timers.filter (fun p => decide (p.1 ≠ n))⟩

/-- Embedding of `consumeNonce` (`lib/auth.ts` lines 56-60):
`const deleted = nonces.delete(nonce); return deleted`. The boolean is
whether the nonce was present; the store loses the nonce. There is no
timestamp or TTL comparison anywhere in this function. -/
def consumeNonce (s : NonceStore) (n : String) : Bool × NonceStore :=
  (decide (n ∈ s.nonces),
   ⟨s.nonces.filter (fun m => decide (m ≠ n)), s.timers⟩)

/-- Iterated `consumeNonce`: the results and final store of `k` successive
calls for the same nonce. Each call is a single synchronous JavaScript
block (no `await` inside), hence atomic with respect to the event loop, so
any interleaving of concurrent calls is one of these sequential runs. -/
def consumeN (s : NonceStore) (n : String) : Nat → List Bool × NonceStore
  | 0 => ([], s)
  | Nat.succ k =>
    let c := consumeNonce s n
    let r := consumeN c.2 n k
    (c.1 :: r.1, r.2)

/-- Session record stored by `verify/route.ts`. -/
structure Session where
  address : String
  createdAt : Nat
  expiresAt : Nat
deriving DecidableEq

/-- Lookup in the association list modelling `sessions : Map<string, Session>`. -/
def mapGet (m : List (String × Session)) (k : String) : Option Session :=
  match m with
  | [] => none
  | kv :: rest => if kv.1 = k then some kv.2 else mapGet rest k

/-- Deletion from the session map (`sessions.delete(token)`). -/
def mapDelete (m : List (String × Session)) (k : String) : List (String × Session) :=
  m.filter (fun p => decide (p.1 ≠ k))

/-- Insertion into the session map (`sessions.set(token, ...)`). -/
def mapSet (m : List (String × Session)) (k : String) (v : Session) :
    List (String × Session) :=
  (k, v) :: mapDelete m k

/-- Observable JSON body of a response of the auth routes. -/
inductive Body where
  | errorMsg (msg : String)
  | nonceOut (nonce : String)
  | sessionOut (sessionToken : String) (address : String) (expiresIn : Nat)
  | sessionInfo (valid : Bool) (address : String) (expiresAt : Nat)
  | signOut (success : Bool) (message : String)
deriving DecidableEq

/-- Observable HTTP response: status code and JSON body. -/
structure HttpResponse where
  status : Nat
  body : Body
deriving DecidableEq

/-- Combined mutable state of the auth subsystem. -/
structure AuthState where
  nonceStore : NonceStore
  sessions : List (String × Session)
deriving DecidableEq

/-- Outcome of the call `publicClient.verifyMessage(...)`: it resolved to a
boolean, or it threw (network / infrastructure error). -/
inductive VerifierResult where
  | ok (valid : Bool)
  | err
deriving DecidableEq

/-- Hex digit used by `Buffer.toString('hex')`: `0`-`9` then `a`-`f`. -/
def hexChar (n : Nat) : Char :=
  Char.ofNat (if n < 10 then 48 + n else 87 + n)

/-- Two lowercase hex characters of one byte, high digit first. -/
def byteToHex (b : Fin 256) : List Char :=
  [hexChar (b.val / 16), hexChar (b.val % 16)]

/-- Embedding of `crypto.randomBytes(16).toString('hex')` applied to the
given random bytes (`nonce/route.ts` line 19). -/
def generateNonce (bytes : List (Fin 256)) : String :=
  String.mk (bytes.flatMap byteToHex)

/-- Embedding of `GET /auth/nonce` (`nonce/route.ts`): generate a nonce from
the random bytes, register it via `addNonce`, return it. -/
def nonceGET (st : AuthState) (bytes : List (Fin 256)) (now : Nat) :
    HttpResponse × AuthState :=
  let n := generateNonce bytes
  (⟨200, Body.nonceOut n⟩, ⟨addNonce st.nonceStore n now, st.sessions⟩)

/-- Character class `[a-f0-9]` under the regex `i` flag: `0`-`9`, `a`-`f`
or `A`-`F`. -/
def isHexDigitCI (c : Char) : Bool :=
  (48 ≤ c.toNat && c.toNat ≤ 57) ||
  (97 ≤ c.toNat && c.toNat ≤ 102) ||
  (65 ≤ c.toNat && c.toNat ≤ 70)

/-- Lowercase hex digit: `0`-`9` or `a`-`f`. -/
def isLowerHexDigit (c : Char) : Bool :=
  (48 ≤ c.toNat && c.toNat ≤ 57) || (97 ≤ c.toNat && c.toNat ≤ 102)

/-- Case-insensitive character comparison, as the regex `i` flag performs
for ASCII literals. -/
def ciEq (a b : Char) : Bool := a.toLower == b.toLower

/-- Literal part of the regex `/Nonce: ([a-f0-9]+)/i`. -/
def noncePat : List Char := ['N', 'o', 'n', 'c', 'e', ':', ' ']

/-- Case-insensitive test that `text` starts with `pat`. -/
def matchPat : List Char → List Char → Bool
  | [], _ => true
  | _ :: _, [] => false
  | a :: p, b :: t => ciEq a b && matchPat p t

/-- Search of `message.match(/Nonce: ([a-f0-9]+)/i)`: find the earliest
position where the literal `Nonce: ` matches case-insensitively and at
least one `[a-f0-9]` (either case) follows; the capture group is the
maximal (greedy) run of such characters. -/
def findNonceMatch : List Char → Option (List Char)
  | [] => none
  | c :: cs =>
    if matchPat noncePat (c :: cs) then
      let run := ((c :: cs).drop 7).takeWhile isHexDigitCI
      if run.isEmpty then findNonceMatch cs else some run
    else findNonceMatch cs

/-- Nonce extraction of `verify/route.ts` lines 65-77: the capture group of
the first regex match, when any. -/
def extractNonce (msg : String) : Option String :=
  Option.map String.mk (findNonceMatch msg.data)

/-- Whether the full regex `/Nonce: ([a-f0-9]+)/i` matches at position `i`
of `msg` (used to speak about the number of matches a message contains). -/
def nonceMatchAt (msg : String) (i : Nat) : Bool :=
  matchPat noncePat (msg.data.drop i) &&
  !((msg.data.drop (i + 7)).takeWhile isHexDigitCI).isEmpty

/-- Exact (case-sensitive) test that `text` starts with `pat`. -/
def matchExact : List Char → List Char → Bool
  | [], _ => true
  | _ :: _, [] => false
  | a :: p, b :: t => (a == b) && matchExact p t

/-- Decidable statement that no case-insensitive occurrence of `Nonce: `
starts strictly inside `pre` when the full text is `pre ++ rest`. -/
def noCIMatchIn : List Char → List Char → Bool
  | [], _ => true
  | c :: p, rest => !matchPat noncePat ((c :: p) ++ rest) && noCIMatchIn p rest

/-- Head of a character list is absent or not a `[a-f0-9]` (either case)
character. -/
def headNotHex : List Char → Bool
  | [] => true
  | c :: _ => !isHexDigitCI c

/-- Embedding of `POST /auth/verify` (`verify/route.ts` lines 48-141).
Steps in source order: falsy-field check, nonce extraction by regex,
`consumeNonce`, signature verification (an explicit outcome here), session
creation with a fresh token on success. -/
def verifyPOST (st : AuthState) (address message signature : String)
    (verifier : VerifierResult) (newToken : String) (now : Nat) :
    HttpResponse × AuthState :=
  if address = "" ∨ message = "" ∨ signature = "" then
    (⟨400, Body.errorMsg "Missing required fields: address, message, signature"⟩, st)
  else
    match extractNonce message with
    | none => (⟨400, Body.errorMsg "Invalid message format: nonce not found"⟩, st)
    | some nonce =>
      let c := consumeNonce st.nonceStore nonce
      let st1 : AuthState := ⟨c.2, st.sessions⟩
      if c.1 then
        match verifier with
        | VerifierResult.err =>
            (⟨401, Body.errorMsg "Signature verification failed"⟩, st1)
        | VerifierResult.ok false =>
            (⟨401, Body.errorMsg "Invalid signature"⟩, st1)
        | VerifierResult.ok true =>
            (⟨200, Body.sessionOut newToken address (sevenDays / 1000)⟩,
             ⟨st1.nonceStore,
              mapSet st1.sessions newToken ⟨address, now, now + sevenDays⟩⟩)
      else
        (⟨401, Body.errorMsg "Invalid, expired, or reused nonce"⟩, st1)

/-- Embedding of `GET /auth/verify` (`verify/route.ts` lines 148-190):
session check. An absent `token` query parameter and an empty one are both
falsy and modelled as `""`. -/
def sessionGET (m : List (String × Session)) (token : String) (now : Nat) :
    HttpResponse × List (String × Session) :=
  if token = "" then (⟨400, Body.errorMsg "Missing session token"⟩, m)
  else
    match mapGet m token with
    | none => (⟨401, Body.errorMsg "Invalid session"⟩, m)
    | some s =>
      if s.expiresAt < now then
        (⟨401, Body.errorMsg "Session expired"⟩, mapDelete m token)
      else
        (⟨200, Body.sessionInfo true s.address s.expiresAt⟩, m)

/-- Embedding of `DELETE /auth/verify` (`verify/route.ts` lines 196-228):
sign out. -/
def sessionDELETE (m : List (String × Session)) (token : String) :
    HttpResponse × List (String × Session) :=
  if token = "" then (⟨400, Body.errorMsg "Missing session token"⟩, m)
  else (⟨200, Body.signOut true "Signed out successfully"⟩, mapDelete m token)


/-- Demo nonce store holding the single nonce `aa` with its pending timer. -/
def storeAA : NonceStore := ⟨["aa"], [("aa", nonceTTL)]⟩

/-- Demo auth state built on `storeAA`, with no sessions. -/
def stateAA : AuthState := ⟨storeAA, []⟩

/-- Message containing two matches of the nonce embedding format. -/
def msgTwoNonces : String := "Nonce: aa Nonce: bb"

/-- Demo session map: one session bound to `0xabc`, expiring at time 100. -/
def sessionsDemo : List (String × Session) := [("t2", ⟨"0xabc", 0, 100⟩)]

/-- A 32-character lowercase hexadecimal nonce value. -/
def nonceA : String := "aaaaaaaaaaaaaaaaaaaaaaaaaaaaaaaa"

/-- Message whose first exact-case occurrence of `Nonce: ` is immediately
followed by `nonceA` with nothing after, but which contains an earlier
lowercase `nonce: ` occurrence followed by hex digits. -/
def msgLowerFirst : String := "nonce: ff Nonce: aaaaaaaaaaaaaaaaaaaaaaaaaaaaaaaa"

/-- Characters of `msgLowerFirst` before its exact-case `Nonce: ` line. -/
def msgLowerFirstPre : List Char := "nonce: ff ".data

/-- Decidable statement that no exact-case occurrence of `Nonce: ` starts
strictly inside `pre` when the full text is `pre ++ rest`. -/
def noExactMatchIn : List Char → List Char → Bool
  | [], _ => true
  | c :: p, rest => !matchExact noncePat ((c :: p) ++ rest) && noExactMatchIn p rest

/-- Concrete well-formed message embedding `nonceA` after some text. -/
def msgWitness : String := "x Nonce: aaaaaaaaaaaaaaaaaaaaaaaaaaaaaaaa"

/-- Filtering with the same predicate twice equals filtering once. -/
theorem filter_idem {α : Type} (p : α → Bool) (l : List α) :
    (l.filter p).filter p = l.filter p := by
  induction l with
  | nil => rfl
  | cons a l ih =>
    cases h : p a <;> simp [List.filter_cons, h, ih]

/-- A deleted nonce is no longer a member of the store. -/
theorem not_mem_filter_ne (l : List String) (n : String) :
    n ∉ l.filter (fun m => decide (m ≠ n)) := by
  simp [List.mem_filter]

/-- A nonce just added by `addNonce` is a member of the store. -/
theorem mem_addNonce (s : NonceStore) (n : String) (t : Nat) :
    n ∈ (addNonce s n t).nonces := by
  unfold addNonce
  by_cases h : n ∈ s.nonces <;> simp [h]

/-- Unfolding equation of `consumeN` for a positive count. -/
theorem consumeN_succ (s : NonceStore) (n : String) (k : Nat) :
    consumeN s n (k + 1) =
      ((consumeNonce s n).1 :: (consumeN (consumeNonce s n).2 n k).1,
       (consumeN (consumeNonce s n).2 n k).2) := rfl

/-- Consuming a nonce that is absent returns false and leaves the
membership situation unchanged; iterating it never yields true. -/
theorem consumeN_all_false (s : NonceStore) (n : String)
    (h : n ∉ s.nonces) (k : Nat) :
    (consumeN s n k).1 = List.replicate k false ∧ n ∉ (consumeN s n k).2.nonces := by
  induction k generalizing s with
  | zero => exact ⟨rfl, h⟩
  | succ k ih =>
    have hb : decide (n ∈ s.nonces) = false := decide_eq_false h
    have h2 : n ∉ (consumeNonce s n).2.nonces := not_mem_filter_ne s.nonces n
    have ihh := ih (consumeNonce s n).2 h2
    rw [consumeN_succ]
    refine ⟨?_, ihh.2⟩
    rw [List.replicate_succ, ihh.1]
    show decide (n ∈ s.nonces) :: _ = _
    rw [hb]

/-- Deleting a nonce twice changes the store only once. -/
theorem consume_twice_store (s : NonceStore) (n : String) :
    (consumeNonce (consumeNonce s n).2 n).2 = (consumeNonce s n).2 := by
  simp [consumeNonce, filter_idem]

/-- Replicated false results contain no true. -/
theorem count_true_replicate_false (k : Nat) :
    (List.replicate k false).count true = 0 := by
  induction k with
  | zero => rfl
  | succ k ih => simp [List.replicate_succ, List.count_cons, ih]

/-- Replicated false results are all false. -/
theorem count_false_replicate_false (k : Nat) :
    (List.replicate k false).count false = k := by
  induction k with
  | zero => rfl
  | succ k ih => simp [List.replicate_succ, List.count_cons, ih]

/-- C1: for every nonce issued via `GET /auth/nonce` (which registers the
generated nonce through `addNonce`), the first `consumeNonce` call on it
returns true, every subsequent call returns false, and the second call
causes no further state change. -/
theorem nonce_single_use (st : AuthState) (bytes : List (Fin 256)) (t : Nat) :
    (consumeNonce (nonceGET st bytes t).2.nonceStore (generateNonce bytes)).1 = true ∧
    (consumeNonce (consumeNonce (nonceGET st bytes t).2.nonceStore (generateNonce bytes)).2
        (generateNonce bytes)).1 = false ∧
    (consumeNonce (consumeNonce (nonceGET st bytes t).2.nonceStore (generateNonce bytes)).2
        (generateNonce bytes)).2 =
      (consumeNonce (nonceGET st bytes t).2.nonceStore (generateNonce bytes)).2 :=
  ⟨decide_eq_true (mem_addNonce st.nonceStore _ t),
   decide_eq_false (not_mem_filter_ne _ _),
   consume_twice_store _ _⟩

/-- C3 (code bug): `consumeNonce` makes no TTL comparison at all. Adding
nonce `ab` at time 0 schedules its only removal for time `nonceTTL`; when
that timer has not fired, `consumeNonce` still returns true, even though
the current time `nonceTTL + 1` is past the TTL. The spec requires false
here. -/
theorem consume_ignores_ttl :
    (consumeNonce (addNonce ⟨[], []⟩ "ab" 0) "ab").1 = true ∧
    (addNonce (⟨[], []⟩ : NonceStore) "ab" 0).timers = [("ab", nonceTTL)] ∧
    nonceTTL < nonceTTL + 1 := by
  refine ⟨by decide, by decide, by omega⟩

/-- C9: any interleaving of `N ≥ 2` concurrent `consumeNonce` calls for the
same nonce (each call is one synchronous, hence atomic, step) yields
exactly one true and `N - 1` false results. -/
theorem consume_concurrent_single_success (s : NonceStore) (n : String) (N : Nat)
    (hN : 2 ≤ N) (h : n ∈ s.nonces) :
    (consumeN s n N).1.count true = 1 ∧ (consumeN s n N).1.count false = N - 1 := by
  obtain ⟨k, rfl⟩ : ∃ k, N = k + 1 := ⟨N - 1, by omega⟩
  rw [consumeN_succ]
  have hb : (consumeNonce s n).1 = true := decide_eq_true h
  have hrest := consumeN_all_false (consumeNonce s n).2 n (not_mem_filter_ne _ _) k
  rw [hb, hrest.1]
  refine ⟨?_, ?_⟩
  · simp [List.count_cons, count_true_replicate_false]
  · simp [List.count_cons, count_false_replicate_false]

/-- Witness for C9 at a concrete store and three concurrent calls. -/
theorem consume_concurrent_single_success_witness :
    (consumeN storeAA "aa" 3).1.count true = 1 ∧
    (consumeN storeAA "aa" 3).1.count false = 3 - 1 :=
  consume_concurrent_single_success storeAA "aa" 3 (by omega) (by decide)

/-- Deleted keys are no longer found in the session map. -/
theorem mapGet_mapDelete (m : List (String × Session)) (k : String) :
    mapGet (mapDelete m k) k = none := by
  induction m with
  | nil => rfl
  | cons kv rest ih =>
    by_cases h : kv.1 = k
    · simpa [mapDelete, List.filter_cons, h] using ih
    · simpa [mapDelete, List.filter_cons, h, mapGet] using ih

/-- Deleting a session key twice equals deleting it once. -/
theorem mapDelete_idem (m : List (String × Session)) (k : String) :
    mapDelete (mapDelete m k) k = mapDelete m k :=
  filter_idem _ m

/-- C7: a stored session bound to address `a` with expiry `e` is returned as
valid with exactly that address while `now ≤ e`; once `now > e` the check
answers 401 and eagerly deletes the entry, so it is absent afterwards. -/
theorem session_lookup_semantics (m : List (String × Session)) (tok : String)
    (a : String) (c e now : Nat)
    (htok : tok ≠ "") (hget : mapGet m tok = some ⟨a, c, e⟩) :
    (now ≤ e → sessionGET m tok now = (⟨200, Body.sessionInfo true a e⟩, m)) ∧
    (e < now →
      (sessionGET m tok now).1.status = 401 ∧
      mapGet (sessionGET m tok now).2 tok = none) := by
  constructor
  · intro hle
    have hnot : ¬ e < now := not_lt.mpr hle
    simp [sessionGET, htok, hget, hnot]
  · intro hlt
    simp [sessionGET, htok, hget, hlt, mapGet_mapDelete]

/-- Witness for C7: the demo session is valid with its bound address before
its expiry. -/
theorem session_lookup_semantics_witness :
    sessionGET sessionsDemo "t2" 50 =
      (⟨200, Body.sessionInfo true "0xabc" 100⟩, sessionsDemo) :=
  (session_lookup_semantics sessionsDemo "t2" "0xabc" 0 100 50
    (by decide) (by decide)).1 (by omega)

/-- Counterexample to C6: an absent token and an expired token both get
status 401, but the error bodies differ (`Invalid session` versus
`Session expired`), so the two responses are distinguishable. -/
theorem session_absent_expired_counterexample :
    mapGet sessionsDemo "t1" = none ∧
    mapGet sessionsDemo "t2" = some ⟨"0xabc", 0, 100⟩ ∧
    (100 : Nat) < 101 ∧
    (sessionGET sessionsDemo "t1" 101).1 = ⟨401, Body.errorMsg "Invalid session"⟩ ∧
    (sessionGET sessionsDemo "t2" 101).1 = ⟨401, Body.errorMsg "Session expired"⟩ ∧
    (sessionGET sessionsDemo "t1" 101).1 ≠ (sessionGET sessionsDemo "t2" 101).1 := by
  refine ⟨by decide, by decide, by omega, by decide, by decide, by decide⟩

/-- C6 amended: absence and expiry share the same 401 status but are
surfaced with distinct error bodies. -/
theorem session_absent_expired_amended (m : List (String × Session))
    (t1 t2 : String) (s : Session) (now : Nat)
    (h1 : t1 ≠ "") (h2 : t2 ≠ "")
    (habs : mapGet m t1 = none) (hexp : mapGet m t2 = some s)
    (hlt : s.expiresAt < now) :
    (sessionGET m t1 now).1.status = 401 ∧
    (sessionGET m t2 now).1.status = 401 ∧
    (sessionGET m t1 now).1.body = Body.errorMsg "Invalid session" ∧
    (sessionGET m t2 now).1.body = Body.errorMsg "Session expired" := by
  simp [sessionGET, h1, h2, habs, hexp, hlt]

/-- Witness for the amended C6 on the demo session map. -/
theorem session_absent_expired_amended_witness :
    (sessionGET sessionsDemo "t1" 101).1.status = 401 ∧
    (sessionGET sessionsDemo "t2" 101).1.status = 401 ∧
    (sessionGET sessionsDemo "t1" 101).1.body = Body.errorMsg "Invalid session" ∧
    (sessionGET sessionsDemo "t2" 101).1.body = Body.errorMsg "Session expired" :=
  session_absent_expired_amended sessionsDemo "t1" "t2" ⟨"0xabc", 0, 100⟩ 101
    (by decide) (by decide) (by decide) (by decide) (by decide)

/-- Counterexample to C8: sign-out with the empty-string token (falsy in
JavaScript) answers 400 `Missing session token`, not success. -/
theorem revoke_empty_token_counterexample :
    sessionDELETE sessionsDemo "" =
      (⟨400, Body.errorMsg "Missing session token"⟩, sessionsDemo) ∧
    (sessionDELETE sessionsDemo "").1 ≠
      ⟨200, Body.signOut true "Signed out successfully"⟩ := by
  refine ⟨by decide, by decide⟩

/-- C8 amended: for every nonempty token, sign-out reports success, the
session is absent afterwards, and a second sign-out returns the same
response and leaves the store in the same state as the first. -/
theorem revoke_idempotent_amended (m : List (String × Session)) (t : String)
    (h : t ≠ "") :
    (sessionDELETE m t).1 = ⟨200, Body.signOut true "Signed out successfully"⟩ ∧
    mapGet (sessionDELETE m t).2 t = none ∧
    sessionDELETE (sessionDELETE m t).2 t =
      ((sessionDELETE m t).1, (sessionDELETE m t).2) := by
  refine ⟨by simp [sessionDELETE, h], by simp [sessionDELETE, h, mapGet_mapDelete], ?_⟩
  simp [sessionDELETE, h, mapDelete_idem]

/-- Witness for the amended C8 on the demo session map. -/
theorem revoke_idempotent_amended_witness :
    (sessionDELETE sessionsDemo "t2").1 =
      ⟨200, Body.signOut true "Signed out successfully"⟩ ∧
    mapGet (sessionDELETE sessionsDemo "t2").2 "t2" = none ∧
    sessionDELETE (sessionDELETE sessionsDemo "t2").2 "t2" =
      ((sessionDELETE sessionsDemo "t2").1, (sessionDELETE sessionsDemo "t2").2) :=
  revoke_idempotent_amended sessionsDemo "t2" (by decide)

/-- Replay of a sign-in request whose nonce is no longer in the store:
the handler answers 401 `Invalid, expired, or reused nonce` and only
re-filters the (already nonce-free) store. -/
theorem verifyPOST_reuse (st : AuthState)
    (address message signature n newToken : String)
    (verifier : VerifierResult) (now : Nat)
    (ha : address ≠ "") (hm : message ≠ "") (hs : signature ≠ "")
    (hex : extractNonce message = some n)
    (hnot : n ∉ st.nonceStore.nonces) :
    verifyPOST st address message signature verifier newToken now =
      (⟨401, Body.errorMsg "Invalid, expired, or reused nonce"⟩,
       ⟨⟨st.nonceStore.nonces.filter (fun m => decide (m ≠ n)),
         st.nonceStore.timers⟩, st.sessions⟩) := by
  have hfalse : ¬(address = "" ∨ message = "" ∨ signature = "") := by
    push_neg; exact ⟨ha, hm, hs⟩
  have hb : decide (n ∈ st.nonceStore.nonces) = false := decide_eq_false hnot
  simp [verifyPOST, hfalse, hex, consumeNonce, hb]

/-- First run of a failing sign-in (invalid signature or verifier error):
response 401 with the branch-specific body, nonce removed, sessions kept. -/
theorem verifyPOST_fail (st : AuthState)
    (address message signature n newToken : String)
    (verifier : VerifierResult) (now : Nat)
    (ha : address ≠ "") (hm : message ≠ "") (hs : signature ≠ "")
    (hex : extractNonce message = some n)
    (hmem : n ∈ st.nonceStore.nonces)
    (hv : verifier ≠ VerifierResult.ok true) :
    verifyPOST st address message signature verifier newToken now =
      ((match verifier with
        | VerifierResult.err => ⟨401, Body.errorMsg "Signature verification failed"⟩
        | VerifierResult.ok _ => ⟨401, Body.errorMsg "Invalid signature"⟩),
       ⟨⟨st.nonceStore.nonces.filter (fun m => decide (m ≠ n)),
         st.nonceStore.timers⟩, st.sessions⟩) := by
  have hfalse : ¬(address = "" ∨ message = "" ∨ signature = "") := by
    push_neg; exact ⟨ha, hm, hs⟩
  have hb : decide (n ∈ st.nonceStore.nonces) = true := decide_eq_true hmem
  rcases verifier with b | _
  · cases b
    · simp [verifyPOST, hfalse, hex, consumeNonce, hb]
    · exact absurd rfl hv
  · simp [verifyPOST, hfalse, hex, consumeNonce, hb]

/-- C2: when the verifier answers false or throws, no session is created,
the consumed nonce is not restored, the response is a 401, and an exact
repeat of the same request answers `Invalid, expired, or reused nonce`
with no further state change. -/
theorem completeSignIn_failure_atomicity (st : AuthState)
    (address message signature n newToken : String)
    (verifier : VerifierResult) (now : Nat)
    (ha : address ≠ "") (hm : message ≠ "") (hs : signature ≠ "")
    (hex : extractNonce message = some n)
    (hmem : n ∈ st.nonceStore.nonces)
    (hv : verifier ≠ VerifierResult.ok true) :
    (verifyPOST st address message signature verifier newToken now).2.sessions =
      st.sessions ∧
    n ∉ (verifyPOST st address message signature verifier newToken now).2.nonceStore.nonces ∧
    (verifyPOST st address message signature verifier newToken now).1.status = 401 ∧
    (verifyPOST (verifyPOST st address message signature verifier newToken now).2
        address message signature verifier newToken now).1 =
      ⟨401, Body.errorMsg "Invalid, expired, or reused nonce"⟩ ∧
    (verifyPOST (verifyPOST st address message signature verifier newToken now).2
        address message signature verifier newToken now).2 =
      (verifyPOST st address message signature verifier newToken now).2 := by
  have hfirst := verifyPOST_fail st address message signature n newToken
    verifier now ha hm hs hex hmem hv
  have hagain := verifyPOST_reuse
    (⟨⟨st.nonceStore.nonces.filter (fun m => decide (m ≠ n)),
       st.nonceStore.timers⟩, st.sessions⟩ : AuthState)
    address message signature n newToken verifier now ha hm hs hex
    (not_mem_filter_ne _ _)
  refine ⟨?_, ?_, ?_, ?_, ?_⟩
  · rw [hfirst]
  · rw [hfirst]; exact not_mem_filter_ne _ _
  · rw [hfirst]; rcases verifier with b | _
    · rfl
    · rfl
  · rw [hfirst]; rw [hagain]
  · rw [hfirst]; rw [hagain]; simp [filter_idem]

/-- Witness for C2: failing sign-in with nonce `aa` present, verifier
answering false; the repeat gets the nonce error and changes nothing. -/
theorem completeSignIn_failure_atomicity_witness :
    (verifyPOST stateAA "0x1" "Nonce: aa" "0xsig" (VerifierResult.ok false)
        "tok" 0).2.sessions = stateAA.sessions ∧
    "aa" ∉ (verifyPOST stateAA "0x1" "Nonce: aa" "0xsig" (VerifierResult.ok false)
        "tok" 0).2.nonceStore.nonces ∧
    (verifyPOST stateAA "0x1" "Nonce: aa" "0xsig" (VerifierResult.ok false)
        "tok" 0).1.status = 401 ∧
    (verifyPOST (verifyPOST stateAA "0x1" "Nonce: aa" "0xsig" (VerifierResult.ok false)
        "tok" 0).2 "0x1" "Nonce: aa" "0xsig" (VerifierResult.ok false) "tok" 0).1 =
      ⟨401, Body.errorMsg "Invalid, expired, or reused nonce"⟩ ∧
    (verifyPOST (verifyPOST stateAA "0x1" "Nonce: aa" "0xsig" (VerifierResult.ok false)
        "tok" 0).2 "0x1" "Nonce: aa" "0xsig" (VerifierResult.ok false) "tok" 0).2 =
      (verifyPOST stateAA "0x1" "Nonce: aa" "0xsig" (VerifierResult.ok false) "tok" 0).2 :=
  completeSignIn_failure_atomicity stateAA "0x1" "Nonce: aa" "0xsig" "aa" "tok"
    (VerifierResult.ok false) 0 (by decide) (by decide) (by decide) (by decide)
    (by decide) (by decide)

/-- Counterexample to C4: when the verifier throws, the handler answers
401 `Signature verification failed`, not a 500 infrastructure status. -/
theorem verifier_error_status_counterexample :
    (verifyPOST stateAA "0x1" "Nonce: aa" "0xsig" VerifierResult.err "tok" 0).1 =
      ⟨401, Body.errorMsg "Signature verification failed"⟩ ∧
    (verifyPOST stateAA "0x1" "Nonce: aa" "0xsig" VerifierResult.err "tok" 0).1.status ≠
      500 := by
  refine ⟨by decide, by decide⟩

/-- C4 amended: a verifier error and an invalid signature share HTTP status
401 and are distinguished only by the error body; malformed input still
gets 400. -/
theorem verifier_error_status_amended (st : AuthState)
    (address message signature n newToken : String) (now : Nat)
    (ha : address ≠ "") (hm : message ≠ "") (hs : signature ≠ "")
    (hex : extractNonce message = some n)
    (hmem : n ∈ st.nonceStore.nonces) :
    (verifyPOST st address message signature VerifierResult.err newToken now).1 =
      ⟨401, Body.errorMsg "Signature verification failed"⟩ ∧
    (verifyPOST st address message signature (VerifierResult.ok false) newToken now).1 =
      ⟨401, Body.errorMsg "Invalid signature"⟩ ∧
    (verifyPOST st address message signature VerifierResult.err newToken now).1.body ≠
      (verifyPOST st address message signature (VerifierResult.ok false) newToken now).1.body ∧
    (∀ msg2 : String, msg2 ≠ "" → extractNonce msg2 = none →
      (verifyPOST st address msg2 signature VerifierResult.err newToken now).1 =
        ⟨400, Body.errorMsg "Invalid message format: nonce not found"⟩) := by
  have h1 := verifyPOST_fail st address message signature n newToken
    VerifierResult.err now ha hm hs hex hmem (by intro h; cases h)
  have h2 := verifyPOST_fail st address message signature n newToken
    (VerifierResult.ok false) now ha hm hs hex hmem (by intro h; cases h)
  refine ⟨by rw [h1], by rw [h2], ?_, ?_⟩
  · rw [h1, h2]
    show Body.errorMsg "Signature verification failed" ≠
      Body.errorMsg "Invalid signature"
    decide
  intro msg2 hm2 hnone
  have hfalse : ¬(address = "" ∨ msg2 = "" ∨ signature = "") := by
    push_neg; exact ⟨ha, hm2, hs⟩
  simp [verifyPOST, hfalse, hnone]

/-- Witness for the amended C4 on the demo state. -/
theorem verifier_error_status_amended_witness :
    (verifyPOST stateAA "0x1" "Nonce: aa" "0xsig" VerifierResult.err "tok" 0).1 =
      ⟨401, Body.errorMsg "Signature verification failed"⟩ ∧
    (verifyPOST stateAA "0x1" "Nonce: aa" "0xsig" (VerifierResult.ok false) "tok" 0).1 =
      ⟨401, Body.errorMsg "Invalid signature"⟩ ∧
    (verifyPOST stateAA "0x1" "Nonce: aa" "0xsig" VerifierResult.err "tok" 0).1.body ≠
      (verifyPOST stateAA "0x1" "Nonce: aa" "0xsig" (VerifierResult.ok false) "tok" 0).1.body ∧
    (∀ msg2 : String, msg2 ≠ "" → extractNonce msg2 = none →
      (verifyPOST stateAA "0x1" msg2 "0xsig" VerifierResult.err "tok" 0).1 =
        ⟨400, Body.errorMsg "Invalid message format: nonce not found"⟩) :=
  verifier_error_status_amended stateAA "0x1" "Nonce: aa" "0xsig" "aa" "tok" 0
    (by decide) (by decide) (by decide) (by decide) (by decide)

/-- Counterexample to C5: `msgTwoNonces` contains two matches of the nonce
embedding format, yet the handler does not answer 400 and does mutate the
nonce store (it consumes the first match's nonce). -/
theorem malformed_ambiguous_counterexample :
    nonceMatchAt msgTwoNonces 0 = true ∧
    nonceMatchAt msgTwoNonces 10 = true ∧
    extractNonce msgTwoNonces = some "aa" ∧
    (verifyPOST stateAA "0x1" msgTwoNonces "0xsig" (VerifierResult.ok false)
        "tok" 0).1.status ≠ 400 ∧
    (verifyPOST stateAA "0x1" msgTwoNonces "0xsig" (VerifierResult.ok false)
        "tok" 0).2.nonceStore ≠ stateAA.nonceStore := by
  refine ⟨by decide, by decide, by decide, by decide, by decide⟩

/-- C5 amended: a message with no parseable nonce token gets 400
`Invalid message format: nonce not found` with the state untouched; a
message with at least one match (including an ambiguous one) is never
answered 400 — its first match's nonce is used. -/
theorem malformed_message_amended (st : AuthState)
    (address message signature newToken : String)
    (verifier : VerifierResult) (now : Nat)
    (ha : address ≠ "") (hm : message ≠ "") (hs : signature ≠ "") :
    (extractNonce message = none →
      verifyPOST st address message signature verifier newToken now =
        (⟨400, Body.errorMsg "Invalid message format: nonce not found"⟩, st)) ∧
    (∀ n, extractNonce message = some n →
      (verifyPOST st address message signature verifier newToken now).1.status ≠ 400) := by
  have hfalse : ¬(address = "" ∨ message = "" ∨ signature = "") := by
    push_neg; exact ⟨ha, hm, hs⟩
  constructor
  · intro hnone
    simp [verifyPOST, hfalse, hnone]
  · intro n hsome
    cases hb : decide (n ∈ st.nonceStore.nonces) with
    | false => simp [verifyPOST, hfalse, hsome, consumeNonce, hb]
    | true =>
      rcases verifier with b | _
      · cases b <;> simp [verifyPOST, hfalse, hsome, consumeNonce, hb]
      · simp [verifyPOST, hfalse, hsome, consumeNonce, hb]

/-- Witness for the amended C5: a message without any `Nonce:` line gets
400 and leaves the demo state unchanged. -/
theorem malformed_message_amended_witness :
    verifyPOST stateAA "0x1" "hello" "0xsig" VerifierResult.err "tok" 0 =
      (⟨400, Body.errorMsg "Invalid message format: nonce not found"⟩, stateAA) :=
  (malformed_message_amended stateAA "0x1" "hello" "0xsig" "tok"
    VerifierResult.err 0 (by decide) (by decide) (by decide)).1 (by decide)

/-- Hex characters produced for digits below 16 are lowercase hex digits. -/
theorem hexChar_lower (k : Nat) (h : k < 16) :
    isLowerHexDigit (hexChar k) = true := by
  have hall : ∀ i : Fin 16, isLowerHexDigit (hexChar i.val) = true := by decide
  exact hall ⟨k, h⟩

/-- Both characters of a byte's hex rendering are lowercase hex digits. -/
theorem byteToHex_all_lower (b : Fin 256) :
    (byteToHex b).all isLowerHexDigit = true := by
  have hb := b.isLt
  have h1 : b.val / 16 < 16 := by omega
  have h2 : b.val % 16 < 16 := by omega
  simp [byteToHex, hexChar_lower _ h1, hexChar_lower _ h2]

/-- Hex rendering doubles the length. -/
theorem flatMap_byteToHex_length (bytes : List (Fin 256)) :
    (bytes.flatMap byteToHex).length = 2 * bytes.length := by
  induction bytes with
  | nil => rfl
  | cons b bs ih =>
    simp only [List.flatMap_cons, List.length_append, ih, byteToHex,
      List.length_cons, List.length_nil]
    omega

/-- Hex rendering yields only lowercase hex digits. -/
theorem flatMap_byteToHex_all_lower (bytes : List (Fin 256)) :
    (bytes.flatMap byteToHex).all isLowerHexDigit = true := by
  induction bytes with
  | nil => rfl
  | cons b bs ih =>
    simp [List.flatMap_cons, List.all_append, byteToHex_all_lower b, ih]

/-- Lowercase hex digits are in the case-insensitive hex class. -/
theorem lower_imp_ci (c : Char) (h : isLowerHexDigit c = true) :
    isHexDigitCI c = true := by
  simp only [isLowerHexDigit, isHexDigitCI, Bool.or_eq_true,
    Bool.and_eq_true, decide_eq_true_eq] at h ⊢
  tauto

/-- A case-insensitive search pattern matches itself. -/
theorem matchPat_self_append (t : List Char) :
    matchPat noncePat (noncePat ++ t) = true := by
  have hall : ∀ p s : List Char, matchPat p (p ++ s) = true := by
    intro p
    induction p with
    | nil => intro s; rfl
    | cons a q ih => intro s; simp [matchPat, List.cons_append, ciEq, ih s]
  exact hall noncePat t

/-- Unfolding equation of `findNonceMatch` on a nonempty text. -/
theorem findNonceMatch_cons (c : Char) (cs : List Char) :
    findNonceMatch (c :: cs) =
      if matchPat noncePat (c :: cs) then
        (if (((c :: cs).drop 7).takeWhile isHexDigitCI).isEmpty
         then findNonceMatch cs
         else some (((c :: cs).drop 7).takeWhile isHexDigitCI))
      else findNonceMatch cs := rfl

/-- The regex search skips a region containing no case-insensitive
occurrence of the literal. -/
theorem findNonceMatch_skip (pre rest : List Char)
    (h : noCIMatchIn pre rest = true) :
    findNonceMatch (pre ++ rest) = findNonceMatch rest := by
  induction pre with
  | nil => rfl
  | cons c p ih =>
    simp only [noCIMatchIn, List.cons_append, Bool.and_eq_true,
      Bool.not_eq_true'] at h
    obtain ⟨h1, h2⟩ := h
    rw [List.cons_append, findNonceMatch_cons, if_neg (by simp [h1])]
    exact ih h2

/-- Greedy hex run over a hex block followed by a non-hex boundary. -/
theorem takeWhile_hex_append (n suf : List Char)
    (hhex : n.all isHexDigitCI = true) (hsuf : headNotHex suf = true) :
    (n ++ suf).takeWhile isHexDigitCI = n := by
  induction n with
  | nil =>
    cases suf with
    | nil => rfl
    | cons c cs =>
      simp only [headNotHex, Bool.not_eq_true'] at hsuf
      simp [List.takeWhile_cons, hsuf]
  | cons a q ih =>
    simp only [List.all_cons, Bool.and_eq_true] at hhex
    simp [List.takeWhile_cons, hhex.1, ih hhex.2]

/-- The regex match at the start of the literal recovers exactly the hex
block that follows it. -/
theorem findNonceMatch_pat (n suf : List Char)
    (hn : n ≠ []) (hhex : n.all isHexDigitCI = true)
    (hsuf : headNotHex suf = true) :
    findNonceMatch (noncePat ++ (n ++ suf)) = some n := by
  have hstep : noncePat ++ (n ++ suf) =
      'N' :: (['o', 'n', 'c', 'e', ':', ' '] ++ (n ++ suf)) := rfl
  rw [hstep, findNonceMatch_cons]
  have hm : matchPat noncePat
      ('N' :: (['o', 'n', 'c', 'e', ':', ' '] ++ (n ++ suf))) = true := by
    have hself := matchPat_self_append (n ++ suf)
    rwa [hstep] at hself
  rw [if_pos hm]
  have hdrop : ('N' :: (['o', 'n', 'c', 'e', ':', ' '] ++ (n ++ suf))).drop 7 =
      n ++ suf := rfl
  rw [hdrop, takeWhile_hex_append n suf hhex hsuf]
  have hne : n.isEmpty = false := by
    cases n with
    | nil => exact absurd rfl hn
    | cons a q => rfl
  simp [hne]

/-- C10 amended: every issued nonce is a 32-character lowercase hex string,
and extraction recovers exactly the nonce that immediately follows the
first case-insensitive occurrence of `Nonce: ` when the next character (if
any) is not a hex digit of either case. -/
theorem nonce_roundtrip_amended :
    (∀ bytes : List (Fin 256), bytes.length = 16 →
      (generateNonce bytes).length = 32 ∧
      (generateNonce bytes).data.all isLowerHexDigit = true) ∧
    (∀ (msg : String) (pre n suf : List Char),
      msg.data = pre ++ (noncePat ++ (n ++ suf)) →
      noCIMatchIn pre (noncePat ++ (n ++ suf)) = true →
      n.length = 32 →
      n.all isLowerHexDigit = true →
      headNotHex suf = true →
      extractNonce msg = some (String.mk n)) := by
  constructor
  · intro bytes hlen
    refine ⟨?_, flatMap_byteToHex_all_lower bytes⟩
    show (bytes.flatMap byteToHex).length = 32
    rw [flatMap_byteToHex_length, hlen]
  · intro msg pre n suf hdata hpre hlen hlow hsuf
    have hn : n ≠ [] := by
      intro hnil
      rw [hnil] at hlen
      exact absurd hlen (by decide)
    have hhex : n.all isHexDigitCI = true := by
      rw [List.all_eq_true] at hlow ⊢
      intro c hc
      exact lower_imp_ci c (hlow c hc)
    show Option.map String.mk (findNonceMatch msg.data) = some (String.mk n)
    rw [hdata, findNonceMatch_skip pre _ hpre, findNonceMatch_pat n suf hn hhex hsuf]
    rfl

/-- Witness for the amended C10: the all-zero byte string issues the
all-zero nonce, and `nonceA` is recovered from `msgWitness`. -/
theorem nonce_roundtrip_amended_witness :
    (generateNonce (List.replicate 16 (0 : Fin 256))).length = 32 ∧
    (generateNonce (List.replicate 16 (0 : Fin 256))).data.all isLowerHexDigit = true ∧
    extractNonce msgWitness = some (String.mk nonceA.data) := by
  refine ⟨(nonce_roundtrip_amended.1 _ (by decide)).1,
    (nonce_roundtrip_amended.1 _ (by decide)).2, ?_⟩
  exact nonce_roundtrip_amended.2 msgWitness "x ".data nonceA.data []
    (by decide) (by decide) (by decide) (by decide) (by decide)

/-- Counterexample to C10: in `msgLowerFirst` the first exact-case
occurrence of `Nonce: ` is immediately followed by the 32-character
lowercase hex nonce `nonceA` with nothing after it, yet the
case-insensitive regex extracts `ff` from the earlier `nonce: ff` text. -/
theorem nonce_roundtrip_counterexample :
    nonceA.length = 32 ∧
    nonceA.data.all isLowerHexDigit = true ∧
    msgLowerFirst.data = msgLowerFirstPre ++ (noncePat ++ (nonceA.data ++ [])) ∧
    noExactMatchIn msgLowerFirstPre (noncePat ++ (nonceA.data ++ [])) = true ∧
    extractNonce msgLowerFirst = some "ff" ∧
    ("ff" : String) ≠ nonceA := by
  refine ⟨by decide, by decide, by decide, by decide, by decide, by decide⟩

end SplitPaymentAuth
